import Mathlib

/-!
# Verification of the gym-backend membership-period engine

Shallow embedding of the membership-period lifecycle logic of the
repository (routes/members.js, routes/public.js, routes/transactions.js,
services/analyticsService.js) and proofs about it.

Modelling conventions, used throughout:

* Instants are JavaScript epoch milliseconds, modelled as `ℤ`.  All the
  date arithmetic in the sources is plain millisecond arithmetic on
  `Date` values (`end - start`, `now.getTime() + 7*24*60*60*1000`, ...).
* `date.setHours(0,0,0,0)` truncates an instant to its local midnight;
  we model local days as epoch-aligned `dayMs`-sized blocks (a fixed
  timezone offset would only shift every instant by the same constant).
  `setHours(23,59,59,999)` is midnight of the same day plus
  `dayMs - 1`.
* `date.setDate(date.getDate() + 1)` adds exactly one day
  (`+ dayMs`); DST is not modelled.
* `Math.ceil(x / 86400000)` on an integer millisecond difference `x` is
  exact rational ceiling division, `jsCeilDiv x dayMs`.
* Currency amounts are modelled as `ℤ` (the spec calls them
  currency-minor-units; every comparison in the code is against an
  integer constant).
* On `ℤ`, `/` and `%` below are Lean's euclidean (floor-for-positive-
  divisor) division, which agrees with the JS formulas as noted at each
  definition.
* `MembershipPeriod.status` is not modelled: every period the
  application creates has `status: 'active'` and periods are never
  updated, so the `status: 'active'` filters in the queries never drop
  anything.
-/

/-- One day in milliseconds, the constant `1000 * 60 * 60 * 24` used by
every day computation in the sources. -/
def dayMs : ℤ := 86400000

/-- `Math.ceil(a / b)` for an integer `a` and positive integer `b`
(the sources only ever use `b = dayMs`): exact ceiling division,
written via floor division as `-((-a) / b)`. -/
def jsCeilDiv (a b : ℤ) : ℤ := -((-a) / b)

/-- `date.setHours(0, 0, 0, 0)`: truncate an instant to the midnight
that starts its calendar day. -/
def startOfDay (t : ℤ) : ℤ := dayMs * (t / dayMs)

/-- `Math.round(a / b)` for integers `a` and `b > 0`.  JS
`Math.round x = ⌊x + 1/2⌋`, and `⌊a/b + 1/2⌋ = ⌊(2a + b) / (2b)⌋`
exactly, so the floor division below is an exact model. -/
def jsRoundDiv (a b : ℤ) : ℤ := (2 * a + b) / (2 * b)

/-- A row of the `MembershipPeriod` table (prisma schema), as consumed
by the period-history logic: `startDate`/`endDate` instants plus the
optionally linked transaction's `amount` (the only transaction field the
analytics reads).  The constant `status: 'active'` column is omitted
(see the module docstring). -/
structure MembershipPeriod where
  startDate : ℤ
  endDate : ℤ
  transaction : Option ℤ := none
deriving DecidableEq

/-- Insert a period into a list sorted by `startDate`, keeping it after
any period with the same `startDate` (stability). -/
def insertByStart (p : MembershipPeriod) : List MembershipPeriod → List MembershipPeriod
  | [] => [p]
  | q :: rest =>
      if p.startDate ≤ q.startDate then p :: q :: rest
      else q :: insertByStart p rest

/-- The stable JS `periods.sort((a, b) => new Date(a.startDate) - new Date(b.startDate))`
used by members.js:602, public.js:142 and analyticsService.js:16,
modelled as stable insertion sort by `startDate`. -/
def sortByStart (l : List MembershipPeriod) : List MembershipPeriod :=
  l.foldr insertByStart []

/-- The body of the remaining-days loop of public.js:148-161 /
members.js:608-621 for one period: a period that has not started yet
(`periodStart > currentDate`) contributes its full inclusive span
`ceil((end - start)/day) + 1`; a period that straddles `currentDate`
contributes `ceil((end - currentDate)/day)`; otherwise nothing.
`currentDate` is initialised to `now` and never reassigned in the
source, so the loop is a sum of these per-period values. -/
def periodContribution (now : ℤ) (p : MembershipPeriod) : ℤ :=
  if now < p.startDate then jsCeilDiv (p.endDate - p.startDate) dayMs + 1
  else if now < p.endDate then jsCeilDiv (p.endDate - now) dayMs
  else 0

/-- The remaining-days loop of public.js:148-161 / members.js:608-621,
run over an (already sorted) period list. -/
def remainingDaysLoop (now : ℤ) : List MembershipPeriod → ℤ
  | [] => 0
  | p :: rest => periodContribution now p + remainingDaysLoop now rest

/-- `totalRemainingDays` of public.js:137-164 / members.js:599-627:
the periods are pre-filtered by the query `endDate: { gt: now }`
(public.js:128-135, members.js:579-586), sorted by `startDate` and
folded by the loop; when no period qualifies the value falls back to
`Math.ceil((member.endDate - now) / day)` (public.js:138,
members.js:626). -/
def totalRemainingDays (memberEnd : ℤ) (periods : List MembershipPeriod) (now : ℤ) : ℤ :=
  if 0 < (periods.filter fun p => decide (now < p.endDate)).length then
    remainingDaysLoop now (sortByStart (periods.filter fun p => decide (now < p.endDate)))
  else jsCeilDiv (memberEnd - now) dayMs

/-- The status classification of members.js:629-647 (`POST /search`):
Day Pass members are expired by date-only comparison
(members.js:631-636), regular members by
`member.endDate < now && totalRemainingDays <= 0` (members.js:638);
a non-expired member whose `endDate` is within seven days and whose
`totalRemainingDays` is at most 7 is `expiring_soon`
(members.js:643-644), anyone else `active`. -/
def searchStatus (membershipType : String) (memberEnd : ℤ)
    (periods : List MembershipPeriod) (now : ℤ) : String :=
  let trd := totalRemainingDays memberEnd periods now
  let isExpired :=
    if membershipType = "Day Pass" then startOfDay memberEnd < startOfDay now
    else memberEnd < now ∧ trd ≤ 0
  if isExpired then "expired"
  else if memberEnd ≤ now + 7 * dayMs ∧ trd ≤ 7 then "expiring_soon"
  else "active"

/-- public.js:170-171 and 259: `updatedRemainingDays` starts as
`totalRemainingDays` and, when a day pass is created, becomes
`totalRemainingDays + 1` (never recomputed from the new ledger). -/
def updatedRemainingDays (memberEnd : ℤ) (periods : List MembershipPeriod)
    (now : ℤ) (createDayPass : Bool) : ℤ :=
  if createDayPass then totalRemainingDays memberEnd periods now + 1
  else totalRemainingDays memberEnd periods now

/-- `daysRemaining: Math.max(0, updatedRemainingDays)` of public.js:273,
the value reported in the check-in response. -/
def checkinDaysRemaining (memberEnd : ℤ) (periods : List MembershipPeriod)
    (now : ℤ) (createDayPass : Bool) : ℤ :=
  max 0 (updatedRemainingDays memberEnd periods now createDayPass)

/-- The `reduce` of members.js:719-722 / 293-296 / public.js:206-209:
the maximum `endDate` over a (non-empty) period list, seeded with the
first element's `endDate`.  On `[]` (never reached by the callers) it
returns 0. -/
def latestEndDate : List MembershipPeriod → ℤ
  | [] => 0
  | p :: rest =>
      (p :: rest).foldl (fun latest q => if latest < q.endDate then q.endDate else latest)
        p.endDate

/-- The Day Pass period computation shared by members.js:707-739
(`POST /:id/renew`, Day Pass branch), members.js:278-326
(`POST /with-transaction`, existing-member day-pass branch) and
public.js:193-227 (`POST /checkin`, `createDayPass`) — the three
blocks are line-for-line the same logic.  With any existing periods
the new pass starts the calendar day after the absolute latest
`endDate` (`setDate(+1)` then `setHours(0,0,0,0)`), with no check of
whether that latest end lies in the past or the future; only with no
periods at all does it consult `member.endDate`: the day after it if
it is still in the future, otherwise the start of the current day.
The pass always ends at `setHours(23,59,59,999)` of its start day.
Returns `(startDate, endDate)` of the new period. -/
def dayPassNewPeriod (memberEnd : ℤ) (periods : List MembershipPeriod)
    (now : ℤ) : ℤ × ℤ :=
  match periods with
  | [] =>
      let s0 := if now < memberEnd then memberEnd else now
      let s1 := if s0 = memberEnd ∧ now < memberEnd then s0 + dayMs else s0
      let s := startOfDay s1
      (s, s + dayMs - 1)
  | p :: rest =>
      let s := startOfDay (latestEndDate (p :: rest) + dayMs)
      (s, s + dayMs - 1)

/-- Modelled from the spec: the cursor walk the specification describes
for the Continuity Resolver (spec §4.2) — "Walk the sorted list
maintaining a cursor initialized to `now`: for each period, if its
`start` is still in the future relative to the cursor, count the entire
period's day-span (inclusive, `ceil((end-start)/1 day) + 1`); otherwise
count only `ceil((end-cursor)/1 day)` remaining days; advance the
cursor to `max(cursor, end)` after each period."  Stated here only to
be compared against `totalRemainingDays`, the walk the code performs. -/
def specCursorWalkAux (cursor : ℤ) : List MembershipPeriod → ℤ
  | [] => 0
  | p :: rest =>
      (if cursor < p.startDate then jsCeilDiv (p.endDate - p.startDate) dayMs + 1
       else jsCeilDiv (p.endDate - cursor) dayMs)
      + specCursorWalkAux (max cursor p.endDate) rest

/-- Modelled from the spec: the full spec-side continuity resolution —
collect periods with `end > now`, sort by `start` ascending, run the
cursor walk of `specCursorWalkAux` starting from `now`. -/
def specCursorWalk (periods : List MembershipPeriod) (now : ℤ) : ℤ :=
  specCursorWalkAux now (sortByStart (periods.filter fun p => decide (now < p.endDate)))

/-- A calendar date as JS `Date` exposes it through
`getFullYear`/`getMonth`/`getDate` (month here 1-based). -/
structure CivilDate where
  year : ℤ
  month : ℤ
  day : ℤ
deriving DecidableEq

/-- The Gregorian leap-year rule JS `Date` implements. -/
def isLeapYear (y : ℤ) : Bool :=
  decide ((y % 4 = 0 ∧ y % 100 ≠ 0) ∨ y % 400 = 0)

/-- Length of month `m` (1-based) of year `y` in the proleptic
Gregorian calendar JS `Date` uses. -/
def daysInMonth (y m : ℤ) : ℤ :=
  if m = 2 then (if isLeapYear y then 29 else 28)
  else if m = 4 ∨ m = 6 ∨ m = 9 ∨ m = 11 then 30
  else 31

/-- `endDate.setMonth(endDate.getMonth() + k)` of members.js:123,
members.js:206, members.js:410, members.js:771 and
transactions.js:121: the month index is advanced by `k` (with year
carry), the day-of-month is kept, and — per ECMA-262 `Date`
normalization — a day-of-month that exceeds the target month's length
overflows into the following month (it is NOT clamped).  For any
day-of-month of a valid date (≤ 31) a single carry step suffices,
since the excess is at most `31 - 28 = 3`. -/
def jsSetMonthAdd (d : CivilDate) (k : ℤ) : CivilDate :=
  let total := d.year * 12 + (d.month - 1) + k
  let ty := total / 12
  let tm := total % 12 + 1
  if d.day ≤ daysInMonth ty tm then ⟨ty, tm, d.day⟩
  else
    let total2 := total + 1
    ⟨total2 / 12, total2 % 12 + 1, d.day - daysInMonth ty tm⟩

/-- One element of the `gaps` array built by analyticsService.js:41-47. -/
structure GapRecord where
  afterPeriod : ℕ
  beforePeriod : ℕ
  days : ℤ
  startDate : ℤ
  endDate : ℤ
deriving DecidableEq

/-- The output record of `analyzeMembershipPattern`
(analyticsService.js).  `averageGapDays` is an `Option` because the
empty-history branch (analyticsService.js:3-13) returns an object
without that key, while the main return (analyticsService.js:69-78)
always includes it; `none` models the absent key. -/
structure EngagementSummary where
  totalPeriods : ℕ
  totalDays : ℤ
  totalSpent : ℤ
  averageDuration : ℤ
  gaps : List GapRecord
  loyaltyScore : ℤ
  membershipType : String
  averageGapDays : Option ℤ
deriving DecidableEq

/-- The gap loop of analyticsService.js:34-49 over the sorted list:
for each adjacent pair, `gapDays = ceil((currentStart - prevEnd)/day)`,
pushed only when strictly positive; `i` is the index of the second
period of the pair. -/
def computeGapsAux (i : ℕ) : List MembershipPeriod → List GapRecord
  | [] => []
  | [_] => []
  | p :: q :: rest =>
      let gapDays := jsCeilDiv (q.startDate - p.endDate) dayMs
      (if 0 < gapDays then
        [⟨i - 1, i, gapDays, p.endDate, q.startDate⟩]
       else []) ++ computeGapsAux (i + 1) (q :: rest)

/-- The gaps of a sorted period list (analyticsService.js:34-49,
starting the loop at `i = 1`). -/
def computeGaps (sorted : List MembershipPeriod) : List GapRecord :=
  computeGapsAux 1 sorted

/-- `analyzeMembershipPattern` of services/analyticsService.js.
Faithfulness notes, each against the JS source:
* empty input returns the seven-field baseline WITHOUT `averageGapDays`
  (lines 3-13);
* `totalDays` adds `Math.ceil((end - start) / day)` per period
  (line 25) — NOT the inclusive `+ 1` span;
* `totalSpent` adds `period.transaction.amount` when the period has a
  linked transaction (lines 28-30);
* the loyalty score (lines 57-61) adds 30 for `totalPeriods >= 3`,
  25 for `totalGapDays < 30` (the TOTAL of the gap day-counts), 25 for
  `averageDuration > 30` and 20 for `totalSpent > 1000000`, capped at
  100 (line 75).  `averageDuration` there is the unrounded quotient
  `totalDays / totalPeriods`, so `averageDuration > 30` is
  `30 * totalPeriods < totalDays` (`totalPeriods > 0` in this branch);
* the stored `averageDuration` is `Math.round` of that quotient
  (line 73) and `averageGapDays` is
  `gaps.length > 0 ? Math.round(totalGapDays / gaps.length) : 0`
  (line 77), both modelled by the exact `jsRoundDiv`. -/
def analyzeMembershipPattern (periods : List MembershipPeriod) : EngagementSummary :=
  match periods with
  | [] =>
      { totalPeriods := 0, totalDays := 0, totalSpent := 0, averageDuration := 0,
        gaps := [], loyaltyScore := 0, membershipType := "new", averageGapDays := none }
  | _ :: _ =>
      let sorted := sortByStart periods
      let totalDays := (sorted.map fun p => jsCeilDiv (p.endDate - p.startDate) dayMs).sum
      let totalSpent := (sorted.map fun p => p.transaction.getD 0).sum
      let gaps := computeGaps sorted
      let totalPeriods := periods.length
      let totalGapDays := (gaps.map GapRecord.days).sum
      let loyaltyScore :=
        (if 3 ≤ totalPeriods then 30 else 0) + (if totalGapDays < 30 then 25 else 0)
        + (if 30 * (totalPeriods : ℤ) < totalDays then 25 else 0)
        + (if 1000000 < totalSpent then 20 else 0)
      let membershipType :=
        if 5 ≤ totalPeriods then "loyal"
        else if 3 ≤ totalPeriods then "returning"
        else if totalPeriods = 2 then "second_time"
        else "new"
      { totalPeriods := totalPeriods,
        totalDays := totalDays,
        totalSpent := totalSpent,
        averageDuration :=
          if 0 < totalPeriods then jsRoundDiv totalDays (totalPeriods : ℤ) else 0,
        gaps := gaps,
        loyaltyScore := min 100 loyaltyScore,
        membershipType := membershipType,
        averageGapDays :=
          some (if 0 < gaps.length then jsRoundDiv totalGapDays (gaps.length : ℤ) else 0) }

/-- Modelled from the spec: the loyalty score as the specification words
it (spec §4.3) — "+30 if `totalPeriods >= 3`, +25 if average gap across
all gaps is under 30 days, +25 if `averageDuration > 30`, +20 if
`totalSpent > 1,000,000` ...; capped at 100".  Identical to the code's
score except that the gap bonus tests the MEAN gap
(`totalGapDays / gaps.length < 30`, i.e. `totalGapDays < 30 * length`
— with no gaps the mean is taken as 0, granting the bonus, matching
the code's behaviour on gapless histories).  Stated only to be
compared with `analyzeMembershipPattern`. -/
def specLoyaltyScore (periods : List MembershipPeriod) : ℤ :=
  match periods with
  | [] => 0
  | _ :: _ =>
      let sorted := sortByStart periods
      let totalDays := (sorted.map fun p => jsCeilDiv (p.endDate - p.startDate) dayMs).sum
      let totalSpent := (sorted.map fun p => p.transaction.getD 0).sum
      let gaps := computeGaps sorted
      let totalPeriods := periods.length
      let totalGapDays := (gaps.map GapRecord.days).sum
      min 100
        ((if 3 ≤ totalPeriods then 30 else 0)
          + (if totalGapDays < 30 * (gaps.length : ℤ) ∨ gaps.length = 0 then 25 else 0)
          + (if 30 * (totalPeriods : ℤ) < totalDays then 25 else 0)
          + (if 1000000 < totalSpent then 20 else 0))

/-- A row of the `Transaction` table, with the fields the cascade
delete of members.js:442-457 discriminates on. -/
structure TransactionRec where
  id : ℕ
  memberId : ℕ
  amount : ℤ
deriving DecidableEq

/-- The persistent store as the member-deletion transaction sees it:
member ids, periods tagged with their member id, and transactions. -/
structure GymDb where
  members : List ℕ
  periods : List (ℕ × MembershipPeriod)
  transactions : List TransactionRec
deriving DecidableEq

/-- `DELETE /:id` of members.js:437-457: inside one transaction it
deletes the member's membership periods, then the member's
transactions (`tx.transaction.deleteMany({ where: { memberId } })`,
members.js:449-451), then the member row itself. -/
def deleteMemberCascade (memberId : ℕ) (db : GymDb) : GymDb :=
  { members := db.members.filter fun i => decide (i ≠ memberId),
    periods := db.periods.filter fun pr => decide (pr.1 ≠ memberId),
    transactions := db.transactions.filter fun t => decide (t.memberId ≠ memberId) }

/-! ## Helper lemmas -/

theorem jsCeilDiv_day_mono {a b : ℤ} (h : a ≤ b) :
    jsCeilDiv a dayMs ≤ jsCeilDiv b dayMs := by
  unfold jsCeilDiv dayMs; omega

theorem jsCeilDiv_day_nonneg {a : ℤ} (h : -dayMs < a) : 0 ≤ jsCeilDiv a dayMs := by
  unfold dayMs at h; unfold jsCeilDiv dayMs; omega

theorem jsCeilDiv_day_nonpos {a : ℤ} (h : a ≤ 0) : jsCeilDiv a dayMs ≤ 0 := by
  unfold jsCeilDiv dayMs; omega

theorem startOfDay_le (t : ℤ) : startOfDay t ≤ t := by
  unfold startOfDay dayMs; omega

theorem lt_startOfDay_add (t : ℤ) : t - dayMs < startOfDay t := by
  unfold startOfDay dayMs; omega

theorem periodContribution_nonneg (now : ℤ) (p : MembershipPeriod)
    (hwf : p.startDate ≤ p.endDate) : 0 ≤ periodContribution now p := by
  unfold periodContribution jsCeilDiv dayMs
  split_ifs <;> omega

theorem periodContribution_anti (p : MembershipPeriod) {t1 t2 : ℤ}
    (hwf : p.startDate ≤ p.endDate) (h : t1 ≤ t2) :
    periodContribution t2 p ≤ periodContribution t1 p := by
  unfold periodContribution jsCeilDiv dayMs
  split_ifs <;> omega

theorem periodContribution_of_ended (now : ℤ) (p : MembershipPeriod)
    (hwf : p.startDate ≤ p.endDate) (h : p.endDate ≤ now) :
    periodContribution now p = 0 := by
  unfold periodContribution
  rw [if_neg (by omega), if_neg (by omega)]

theorem remainingDaysLoop_insert (now : ℤ) (p : MembershipPeriod)
    (l : List MembershipPeriod) :
    remainingDaysLoop now (insertByStart p l) =
      periodContribution now p + remainingDaysLoop now l := by
  induction l with
  | nil => rfl
  | cons q rest ih =>
      by_cases h : p.startDate ≤ q.startDate
      · simp [insertByStart, h, remainingDaysLoop]
      · simp [insertByStart, h, remainingDaysLoop, ih]; ring

theorem remainingDaysLoop_sort (now : ℤ) (l : List MembershipPeriod) :
    remainingDaysLoop now (sortByStart l) = remainingDaysLoop now l := by
  induction l with
  | nil => rfl
  | cons p rest ih =>
      show remainingDaysLoop now (insertByStart p (sortByStart rest)) = _
      rw [remainingDaysLoop_insert, ih]
      simp [remainingDaysLoop]

theorem remainingDaysLoop_filter (now : ℤ) (l : List MembershipPeriod)
    (hwf : ∀ p ∈ l, p.startDate ≤ p.endDate) :
    remainingDaysLoop now (l.filter fun p => decide (now < p.endDate)) =
      remainingDaysLoop now l := by
  induction l with
  | nil => rfl
  | cons p rest ih =>
      have hp := hwf p (List.mem_cons_self p rest)
      have hrest : ∀ q ∈ rest, q.startDate ≤ q.endDate :=
        fun q hq => hwf q (List.mem_cons_of_mem p hq)
      by_cases h : now < p.endDate
      · simp [List.filter_cons, h, remainingDaysLoop, ih hrest]
      · simp [List.filter_cons, h, remainingDaysLoop, ih hrest,
          periodContribution_of_ended now p hp (by omega)]

theorem remainingDaysLoop_nonneg (now : ℤ) (l : List MembershipPeriod)
    (hwf : ∀ p ∈ l, p.startDate ≤ p.endDate) : 0 ≤ remainingDaysLoop now l := by
  induction l with
  | nil => simp [remainingDaysLoop]
  | cons p rest ih =>
      have hp := hwf p (List.mem_cons_self p rest)
      have hrest : ∀ q ∈ rest, q.startDate ≤ q.endDate :=
        fun q hq => hwf q (List.mem_cons_of_mem p hq)
      simp only [remainingDaysLoop]
      have := periodContribution_nonneg now p hp
      have := ih hrest
      omega

theorem remainingDaysLoop_anti (l : List MembershipPeriod) {t1 t2 : ℤ}
    (hwf : ∀ p ∈ l, p.startDate ≤ p.endDate) (h : t1 ≤ t2) :
    remainingDaysLoop t2 l ≤ remainingDaysLoop t1 l := by
  induction l with
  | nil => simp [remainingDaysLoop]
  | cons p rest ih =>
      have hp := hwf p (List.mem_cons_self p rest)
      have hrest : ∀ q ∈ rest, q.startDate ≤ q.endDate :=
        fun q hq => hwf q (List.mem_cons_of_mem p hq)
      simp only [remainingDaysLoop]
      have := periodContribution_anti p hp h
      have := ih hrest
      omega

theorem remainingDaysLoop_eq_sum (now : ℤ) (l : List MembershipPeriod) :
    remainingDaysLoop now l = (l.map (periodContribution now)).sum := by
  induction l with
  | nil => rfl
  | cons p rest ih => simp [remainingDaysLoop, ih]

theorem foldl_latest_le {t : ℤ} (l : List MembershipPeriod) (a : ℤ) (ha : a ≤ t)
    (hl : ∀ q ∈ l, q.endDate ≤ t) :
    l.foldl (fun latest q => if latest < q.endDate then q.endDate else latest) a ≤ t := by
  induction l generalizing a with
  | nil => exact ha
  | cons q rest ih =>
      simp only [List.foldl]
      refine ih _ ?_ (fun r hr => hl r (List.mem_cons_of_mem q hr))
      have := hl q (List.mem_cons_self q rest)
      split_ifs <;> omega

theorem latestEndDate_le {t : ℤ} {l : List MembershipPeriod} (hne : l ≠ [])
    (hl : ∀ q ∈ l, q.endDate ≤ t) : latestEndDate l ≤ t := by
  cases l with
  | nil => exact absurd rfl hne
  | cons p rest =>
      unfold latestEndDate
      exact foldl_latest_le _ _ (hl p (List.mem_cons_self p rest)) hl

/-- Whenever the member is not past the date-only expiry guard
(`startOfDay now ≤ member.endDate`) and the stored periods are
well-formed (`end ≥ start`, the spec's Period invariant), the
remaining-days computation is non-negative. -/
theorem totalRemainingDays_nonneg (memberEnd : ℤ) (l : List MembershipPeriod) (now : ℤ)
    (hwf : ∀ p ∈ l, p.startDate ≤ p.endDate) (hg : startOfDay now ≤ memberEnd) :
    0 ≤ totalRemainingDays memberEnd l now := by
  unfold totalRemainingDays
  split_ifs with h
  · rw [remainingDaysLoop_sort, remainingDaysLoop_filter now l hwf]
    exact remainingDaysLoop_nonneg now l hwf
  · apply jsCeilDiv_day_nonneg
    have := lt_startOfDay_add now
    omega

/-! ## Claim C1 -/

/-- A member history consisting of one day pass on epoch day 0
(midnight to 23:59:59.999). -/
def singleOldDayPass : List MembershipPeriod := [⟨0, dayMs - 1, none⟩]

/-- Claim C1, counterexample.  The claim says that when the maximum end
instant of the history is NOT in the future, the new day pass starts at
the beginning of the current calendar day.  Taking the reference
instant on epoch day 10 and a history whose only period ended on epoch
day 0, the code instead starts the new pass on epoch day 1 (the day
after the stale maximum end), not on day 10. -/
theorem c1_counterexample :
    (dayPassNewPeriod 0 singleOldDayPass (10 * dayMs)).1 =
        startOfDay (latestEndDate singleOldDayPass + dayMs) ∧
    (dayPassNewPeriod 0 singleOldDayPass (10 * dayMs)).1 ≠ startOfDay (10 * dayMs) := by
  decide

/-- Claim C1, amended.  For a Day Pass purchase by a member with any
existing periods, the new period's start is ALWAYS the calendar day
after the maximum `endDate` across every period (truncated to
midnight), regardless of whether that maximum is past or future
relative to the reference instant; the end is always 23:59:59.999 of
the start's calendar day.  (The "otherwise start at the beginning of
the current day" behaviour exists only for members with no periods at
all.) -/
theorem c1_theorem (memberEnd : ℤ) (p : MembershipPeriod)
    (rest : List MembershipPeriod) (now : ℤ) :
    dayPassNewPeriod memberEnd (p :: rest) now =
      (startOfDay (latestEndDate (p :: rest) + dayMs),
       startOfDay (latestEndDate (p :: rest) + dayMs) + dayMs - 1) := rfl

/-! ## Claim C2 -/

/-- Claim C2, counterexample.  The claim says a start of Jan 31 with
`durationMonths = 1` yields an end on the last day of February, never a
date normalized into March.  The code's `setMonth` arithmetic turns
Jan 31 2023 into Mar 3 2023. -/
theorem c2_counterexample :
    jsSetMonthAdd ⟨2023, 1, 31⟩ 1 = ⟨2023, 3, 3⟩ ∧
    (jsSetMonthAdd ⟨2023, 1, 31⟩ 1).month ≠ 2 := by decide

/-- Claim C2, amended.  The period end is the start advanced by
`durationMonths` months under JS `Date.setMonth` normalization: the
day-of-month is preserved and, when it exceeds the target month's
length, the excess overflows into the following month — it is never
clamped.  In particular, for every year `y`, Jan 31 plus one month is
March `31 - daysInMonth y 2`, i.e. Mar 2 in leap years and Mar 3
otherwise — never a day of February. -/
theorem c2_theorem (y : ℤ) :
    jsSetMonthAdd ⟨y, 1, 31⟩ 1 = ⟨y, 3, 31 - daysInMonth y 2⟩ ∧
    31 - daysInMonth y 2 = (if isLeapYear y then 2 else 3) := by
  have e1 : y * 12 + (1 - 1) + 1 = y * 12 + 1 := by ring
  have h1 : (y * 12 + 1) / 12 = y := by omega
  have h2 : (y * 12 + 1) % 12 + 1 = 2 := by omega
  have h3 : (y * 12 + 1 + 1) / 12 = y := by omega
  have h4 : (y * 12 + 1 + 1) % 12 + 1 = 3 := by omega
  have hdim : daysInMonth y 2 = if isLeapYear y then 29 else 28 := by
    unfold daysInMonth; simp
  constructor
  · show jsSetMonthAdd ⟨y, 1, 31⟩ 1 = ⟨y, 3, 31 - daysInMonth y 2⟩
    unfold jsSetMonthAdd
    simp only [e1, h1, h2, h3, h4]
    rw [if_neg (show ¬(31 : ℤ) ≤ daysInMonth y 2 by rw [hdim]; split_ifs <;> omega)]
  · rw [hdim]; split_ifs <;> omega

/-! ## Claim C3 -/

/-- Two overlapping periods: one already running at the reference
instant 0 (started a day earlier, ends on day 10), one future-dated
(days 5 to 20). -/
def overlappingPeriods : List MembershipPeriod :=
  [⟨-dayMs, 10 * dayMs, none⟩, ⟨5 * dayMs, 20 * dayMs, none⟩]

/-- Claim C3, counterexample.  The claim says the code's remaining-days
value equals the cursor walk that advances the cursor to
`max(cursor, end)` after each period.  On two overlapping periods
(one running, ending day 10; one starting day 5, ending day 20, at
reference instant 0) the code counts 10 + 16 = 26 days while the
claimed cursor walk counts 10 + 10 = 20. -/
theorem c3_counterexample :
    totalRemainingDays (20 * dayMs) overlappingPeriods 0 = 26 ∧
    specCursorWalk overlappingPeriods 0 = 20 ∧
    totalRemainingDays (20 * dayMs) overlappingPeriods 0 ≠
      specCursorWalk overlappingPeriods 0 := by decide

/-- Claim C3, amended.  The loop never advances its cursor: every
comparison is against the original reference instant, so whenever any
period qualifies (`end > now`), the remaining-days value is the plain
sum, over the qualifying periods, of `ceil((end-start)/day) + 1` for a
period with `start > now` and `ceil((end-now)/day)` otherwise —
independent of the sort order and with no `max(cursor, end)`
advancement. -/
theorem c3_theorem (memberEnd : ℤ) (l : List MembershipPeriod) (now : ℤ)
    (h : (l.filter fun p => decide (now < p.endDate)) ≠ []) :
    totalRemainingDays memberEnd l now =
      ((l.filter fun p => decide (now < p.endDate)).map (periodContribution now)).sum := by
  unfold totalRemainingDays
  rw [if_pos (List.length_pos.mpr h), remainingDaysLoop_sort, remainingDaysLoop_eq_sum]

/-- Claim C3, witness for the amended theorem: a single running period
of two days at reference instant 0. -/
theorem c3_witness :
    totalRemainingDays (2 * dayMs) [⟨0, 2 * dayMs, none⟩] 0 =
      (([⟨0, 2 * dayMs, none⟩].filter fun p =>
          decide ((0 : ℤ) < p.endDate)).map (periodContribution 0)).sum :=
  c3_theorem (2 * dayMs) [⟨0, 2 * dayMs, none⟩] 0 (by decide)

/-! ## Claim C4 -/

/-- Claim C4, counterexample.  A Day Pass member with a single period
ending today at 23:59:59.999, classified at today 22:00
(22 h = 79200000 ms into epoch day 0): the claim says the status is
`active`, but the code classifies the member as `expiring_soon`
(`endDate` is within the 7-day window and `totalRemainingDays = 1 ≤ 7`). -/
theorem c4_counterexample :
    searchStatus "Day Pass" (dayMs - 1) singleOldDayPass 79200000 ≠ "active" := by decide

/-- Claim C4, amended.  For a Day Pass member with a single period
ending today at 23:59:59.999 and a reference instant of today at
22:00, the date-only expiry comparison indeed keeps the member
non-expired, but the resolved status is `expiring_soon` (not
`active`), because the end lies within seven days and the computed
remaining days (1) is at most 7. -/
theorem c4_theorem :
    searchStatus "Day Pass" (dayMs - 1) singleOldDayPass 79200000 = "expiring_soon" ∧
    searchStatus "Day Pass" (dayMs - 1) singleOldDayPass 79200000 ≠ "expired" := by decide

/-! ## Claim C5 -/

/-- Claim C5, counterexample.  The claim says `analyzeEngagement([])`
returns a record with all eight fields, `averageGapDays` included with
value 0.  The empty-history branch of the code returns an object
without the `averageGapDays` key (modelled as `none`), so the result
differs from the claimed eight-field record. -/
theorem c5_counterexample :
    analyzeMembershipPattern [] ≠
      { totalPeriods := 0, totalDays := 0, totalSpent := 0, averageDuration := 0,
        gaps := [], loyaltyScore := 0, membershipType := "new",
        averageGapDays := some 0 } := by decide

/-- Claim C5, amended.  `analyzeEngagement([])` returns exactly the
baseline `{totalPeriods: 0, totalDays: 0, totalSpent: 0,
averageDuration: 0, gaps: [], loyaltyScore: 0, membershipType: 'new'}`
— seven fields; the `averageGapDays` key is absent from the
empty-history record (only the non-empty branch emits it). -/
theorem c5_theorem :
    analyzeMembershipPattern [] =
      { totalPeriods := 0, totalDays := 0, totalSpent := 0, averageDuration := 0,
        gaps := [], loyaltyScore := 0, membershipType := "new",
        averageGapDays := none } := by decide

/-! ## Claim C6 -/

/-- Three one-day periods with two 20-day gaps between them (total gap
40 days, mean gap 20 days). -/
def gappedPeriods : List MembershipPeriod :=
  [⟨0, dayMs, none⟩, ⟨21 * dayMs, 22 * dayMs, none⟩, ⟨42 * dayMs, 43 * dayMs, none⟩]

/-- Claim C6, counterexample.  The claim says the 25-point gap bonus
depends on the MEAN of the gap day-counts.  On a history with two
20-day gaps the mean (20) is under 30, so the claimed formula awards
30 + 25 = 55, but the code tests the TOTAL gap days (40, not under 30)
and awards only 30. -/
theorem c6_counterexample :
    (analyzeMembershipPattern gappedPeriods).loyaltyScore = 30 ∧
    specLoyaltyScore gappedPeriods = 55 ∧
    (analyzeMembershipPattern gappedPeriods).loyaltyScore ≠
      specLoyaltyScore gappedPeriods := by decide

/-- Claim C6, amended.  For every non-empty period history, the
loyalty score is the additive sum of: +30 if `totalPeriods ≥ 3`, +25
if the TOTAL of the gap day-counts is under 30 (not their mean), +25
if the unrounded average duration `totalDays / totalPeriods` exceeds
30, +20 if `totalSpent > 1,000,000`, capped at 100. -/
theorem c6_theorem (l : List MembershipPeriod) (h : l ≠ []) :
    (analyzeMembershipPattern l).loyaltyScore =
      min 100
        ((if 3 ≤ (analyzeMembershipPattern l).totalPeriods then 30 else 0)
          + (if ((analyzeMembershipPattern l).gaps.map GapRecord.days).sum < 30 then 25 else 0)
          + (if 30 * ((analyzeMembershipPattern l).totalPeriods : ℤ) <
                (analyzeMembershipPattern l).totalDays then 25 else 0)
          + (if 1000000 < (analyzeMembershipPattern l).totalSpent then 20 else 0)) := by
  cases l with
  | nil => exact absurd rfl h
  | cons p rest => rfl

/-- Claim C6, witness for the amended theorem at a concrete one-period
history. -/
theorem c6_witness :
    (analyzeMembershipPattern [⟨0, dayMs, none⟩]).loyaltyScore =
      min 100
        ((if 3 ≤ (analyzeMembershipPattern [⟨0, dayMs, none⟩]).totalPeriods then 30 else 0)
          + (if ((analyzeMembershipPattern [⟨0, dayMs, none⟩]).gaps.map
                GapRecord.days).sum < 30 then 25 else 0)
          + (if 30 * ((analyzeMembershipPattern [⟨0, dayMs, none⟩]).totalPeriods : ℤ) <
                (analyzeMembershipPattern [⟨0, dayMs, none⟩]).totalDays then 25 else 0)
          + (if 1000000 < (analyzeMembershipPattern [⟨0, dayMs, none⟩]).totalSpent
             then 20 else 0)) :=
  c6_theorem [⟨0, dayMs, none⟩] (by decide)

/-! ## Claim C7 -/

/-- The claim's two-period scenario with the period bounds the
application itself would store: Jan 1 00:00 to Jan 31 23:59:59.999 and
Feb 5 00:00 to Feb 28 23:59:59.999 (epoch day 0 = Jan 1, so Feb 5 is
day 35 and Feb 28 is day 58), each linked to a transaction of
150000. -/
def twoPeriodScenario : List MembershipPeriod :=
  [⟨0, 31 * dayMs - 1, some 150000⟩, ⟨35 * dayMs, 59 * dayMs - 1, some 150000⟩]

/-- Claim C7, counterexample.  The claim expects a single gap of 4 days
and `averageGapDays = 4`.  The code computes the gap as
`ceil((Feb 5 00:00 - Jan 31 23:59:59.999) / day)` — the difference is
4 days plus 1 ms, so the ceiling is 5, and `averageGapDays` is 5. -/
theorem c7_counterexample :
    (analyzeMembershipPattern twoPeriodScenario).gaps.map GapRecord.days = [5] ∧
    (analyzeMembershipPattern twoPeriodScenario).averageGapDays ≠ some 4 := by decide

/-- Claim C7, amended.  `totalDays` sums `ceil((end - start)/day)` per
period (the inclusive day-span for midnight-to-23:59:59.999 periods);
for the concrete two-period history the analyzer returns
`totalDays = 31 + 24 = 55`, `totalSpent = 300000`, a single gap of 5
days (the 1 ms from 23:59:59.999 to the next midnight tips the ceiling
from 4 to 5), `averageGapDays = 5`, `membershipType = 'second_time'`
and `loyaltyScore = 25` (total gap 5 < 30 grants +25; no other
criterion is met). -/
theorem c7_theorem :
    (analyzeMembershipPattern twoPeriodScenario).totalDays = 55 ∧
    (analyzeMembershipPattern twoPeriodScenario).totalSpent = 300000 ∧
    (analyzeMembershipPattern twoPeriodScenario).gaps.map GapRecord.days = [5] ∧
    (analyzeMembershipPattern twoPeriodScenario).averageGapDays = some 5 ∧
    (analyzeMembershipPattern twoPeriodScenario).membershipType = "second_time" ∧
    (analyzeMembershipPattern twoPeriodScenario).loyaltyScore = 25 := by decide

/-! ## Claim C8 -/

/-- Claim C8, confirmed.  For every non-empty, well-formed period
history (`end ≥ start`, the spec's Period invariant) whose member
`endDate` cache mirrors the ledger's maximum end (the spec's Member
invariant), the remaining-days value is antitone in the reference
instant: `t1 ≤ t2` implies the value at `t2` is at most the value at
`t1`. -/
theorem c8_theorem (memberEnd : ℤ) (l : List MembershipPeriod) (t1 t2 : ℤ)
    (hne : l ≠ []) (hwf : ∀ p ∈ l, p.startDate ≤ p.endDate)
    (hcache : memberEnd = latestEndDate l) (h12 : t1 ≤ t2) :
    totalRemainingDays memberEnd l t2 ≤ totalRemainingDays memberEnd l t1 := by
  unfold totalRemainingDays
  by_cases h2 : 0 < (l.filter fun p => decide (t2 < p.endDate)).length
  · have hin : ∃ p ∈ l, t2 < p.endDate := by
      rcases List.length_pos.mp h2 with hne2
      rcases List.exists_mem_of_ne_nil _ hne2 with ⟨p, hp⟩
      rcases List.mem_filter.mp hp with ⟨hpl, hpd⟩
      exact ⟨p, hpl, by simpa using hpd⟩
    have h1 : 0 < (l.filter fun p => decide (t1 < p.endDate)).length := by
      rcases hin with ⟨p, hpl, hpd⟩
      apply List.length_pos.mpr
      intro hnil
      have : p ∈ l.filter fun p => decide (t1 < p.endDate) :=
        List.mem_filter.mpr ⟨hpl, by simp; omega⟩
      simp [hnil] at this
    rw [if_pos h1, if_pos h2]
    rw [remainingDaysLoop_sort, remainingDaysLoop_filter t2 l hwf]
    rw [remainingDaysLoop_sort, remainingDaysLoop_filter t1 l hwf]
    exact remainingDaysLoop_anti l hwf h12
  · rw [if_neg h2]
    have hall2 : ∀ p ∈ l, p.endDate ≤ t2 := by
      intro p hp
      by_contra hlt
      apply h2
      apply List.length_pos.mpr
      intro hnil
      have : p ∈ l.filter fun p => decide (t2 < p.endDate) :=
        List.mem_filter.mpr ⟨hp, by simp; omega⟩
      simp [hnil] at this
    have hm2 : memberEnd ≤ t2 := hcache ▸ latestEndDate_le hne hall2
    by_cases h1 : 0 < (l.filter fun p => decide (t1 < p.endDate)).length
    · rw [if_pos h1]
      have hle : jsCeilDiv (memberEnd - t2) dayMs ≤ 0 := jsCeilDiv_day_nonpos (by omega)
      have hge : 0 ≤ remainingDaysLoop t1
          (sortByStart (l.filter fun p => decide (t1 < p.endDate))) := by
        rw [remainingDaysLoop_sort, remainingDaysLoop_filter t1 l hwf]
        exact remainingDaysLoop_nonneg t1 l hwf
      omega
    · rw [if_neg h1]
      exact jsCeilDiv_day_mono (by omega)

/-- Claim C8, witness: one period covering epoch day 0, evaluated at
reference instants 0 and `dayMs`. -/
theorem c8_witness :
    totalRemainingDays dayMs [⟨0, dayMs, none⟩] dayMs ≤
      totalRemainingDays dayMs [⟨0, dayMs, none⟩] 0 :=
  c8_theorem dayMs [⟨0, dayMs, none⟩] 0 dayMs (by decide) (by decide) (by decide)
    (by decide)

/-! ## Claim C9 -/

/-- A store with one member (id 1) holding one period linked to one
transaction, plus a transaction of another member (id 2). -/
def sampleDb : GymDb :=
  { members := [1, 2],
    periods := [(1, ⟨0, dayMs, some 500000⟩)],
    transactions := [⟨10, 1, 500000⟩, ⟨11, 2, 250000⟩] }

/-- Claim C9, counterexample.  The claim says no operation that removes
a member's periods deletes the transactions they reference.  Cascading
deletion of member 1 removes the member's periods AND the member's
transaction 10: a transaction that existed before the operation no
longer exists afterwards. -/
theorem c9_counterexample :
    (⟨10, 1, 500000⟩ : TransactionRec) ∈ sampleDb.transactions ∧
    (⟨10, 1, 500000⟩ : TransactionRec) ∉ (deleteMemberCascade 1 sampleDb).transactions := by
  decide

/-- Claim C9, amended.  Cascading member deletion deletes the deleted
member's transactions along with their periods (members.js:449-451);
only transactions belonging to OTHER members survive the operation,
and those survive unchanged. -/
theorem c9_theorem (m : ℕ) (db : GymDb) (t : TransactionRec)
    (ht : t ∈ db.transactions) (hm : t.memberId ≠ m) :
    t ∈ (deleteMemberCascade m db).transactions := by
  unfold deleteMemberCascade
  exact List.mem_filter.mpr ⟨ht, by simpa using hm⟩

/-- Claim C9, witness: member 2's transaction survives the cascading
deletion of member 1. -/
theorem c9_witness :
    (⟨11, 2, 250000⟩ : TransactionRec) ∈ (deleteMemberCascade 1 sampleDb).transactions :=
  c9_theorem 1 sampleDb ⟨11, 2, 250000⟩ (by decide) (by decide)

/-! ## Claim C10 -/

/-- Claim C10, confirmed.  When a day pass is created at check-in, the
`daysRemaining` reported in the response equals the remaining days
computed from the pre-existing periods plus exactly 1 — the created
period's actual bounds never enter the computation.  The hypotheses
mirror the check-in guard that precedes the purchase: periods are
well-formed (spec Period invariant) and the member passed the expiry
check (`member.endDate` not before the start of the current day —
the date-only Day Pass guard; the exact-instant guard for regular
members is stricter). -/
theorem c10_theorem (memberEnd : ℤ) (l : List MembershipPeriod) (now : ℤ)
    (hwf : ∀ p ∈ l, p.startDate ≤ p.endDate) (hg : startOfDay now ≤ memberEnd) :
    checkinDaysRemaining memberEnd l now true =
      totalRemainingDays memberEnd l now + 1 := by
  have hb := totalRemainingDays_nonneg memberEnd l now hwf hg
  unfold checkinDaysRemaining updatedRemainingDays
  simp only [if_true]
  omega

/-- Claim C10, witness: one period covering epoch day 0 at reference
instant 0. -/
theorem c10_witness :
    checkinDaysRemaining dayMs [⟨0, dayMs, none⟩] 0 true =
      totalRemainingDays dayMs [⟨0, dayMs, none⟩] 0 + 1 :=
  c10_theorem dayMs [⟨0, dayMs, none⟩] 0 (by decide) (by decide)
